import Mathlib

/-!
Verification of the duty-cycle ledger and movement planner of the
progressive-automations desk-lift controller.

The Python modules are shallowly embedded over exact rationals (`ℚ` stands
for the Python floats), with the wall clock passed explicitly as a `now`
parameter wherever the source calls `time.time()`, and the JSON state file
and GPIO lines modelled as explicit values and effect logs.
-/

namespace ProgAuto

/-! ## Constants (scripts/constants.py, scripts/duty_cycle.py) -/

def DUTY_CYCLE_PERIOD : ℚ := 1200

def DUTY_CYCLE_MAX_ON_TIME : ℚ := 120

def MAX_CONTINUOUS_RUNTIME : ℚ := 30

def LOWEST_HEIGHT : ℚ := 237 / 10

def HIGHEST_HEIGHT : ℚ := 545 / 10

def UP_RATE : ℚ := 54 / 100

def DOWN_RATE : ℚ := 55 / 100

/-! ## Duty-cycle ledger (scripts/duty_cycle.py)

A usage period is the triple `[start_time, end_time, duration]` stored in
`state["usage_periods"]`. -/

/-- One entry of `state["usage_periods"]`: (start_time, end_time, duration). -/
abbrev Period : Type := ℚ × ℚ × ℚ

/-- `clean_old_usage_periods` (duty_cycle.py): keep the periods whose
end timestamp is strictly after `now - DUTY_CYCLE_PERIOD`. -/
def clean_old_usage_periods (now : ℚ) (ps : List Period) : List Period :=
  ps.filter fun p => decide (p.2.1 > now - DUTY_CYCLE_PERIOD)

/-- The clamped in-window contribution of one period, as computed by the
loop body of `get_current_duty_cycle_usage`. -/
def period_overlap (now : ℚ) (p : Period) : ℚ :=
  let window_start := now - DUTY_CYCLE_PERIOD
  let effective_start := max p.1 window_start
  let effective_end := min p.2.1 now
  if effective_start < effective_end then effective_end - effective_start else 0

/-- `get_current_duty_cycle_usage` (duty_cycle.py): prune, then sum the
clamped overlap of each remaining period with `[now - period, now]`. -/
def get_current_duty_cycle_usage (now : ℚ) (ps : List Period) : ℚ :=
  ((clean_old_usage_periods now ps).map (period_overlap now)).sum

/-- `get_remaining_duty_time` (duty_cycle.py). -/
def get_remaining_duty_time (now : ℚ) (ps : List Period) : ℚ :=
  max 0 (DUTY_CYCLE_MAX_ON_TIME - get_current_duty_cycle_usage now ps)

/-- `record_usage_period` (duty_cycle.py): append `[start, end, duration]`. -/
def record_usage_period (ps : List Period) (s e d : ℚ) : List Period :=
  ps ++ [(s, e, d)]

/-- `check_duty_cycle_limits` (duty_cycle.py): returns `(is_valid,
updated_state)`; the info/error message is not modelled, except that the
rejection branches are distinguished by the boolean and by which test
fired (captured in the theorems below). -/
def check_duty_cycle_limits (now : ℚ) (ps : List Period) (required_time : ℚ) :
    Bool × List Period :=
  let ps1 := clean_old_usage_periods now ps
  let current_usage := get_current_duty_cycle_usage now ps1
  if required_time > MAX_CONTINUOUS_RUNTIME then (false, ps1)
  else if current_usage + required_time > DUTY_CYCLE_MAX_ON_TIME then (false, ps1)
  else (true, ps1)

/-- The state returned by `check_duty_cycle_limits` is the pruned input
state, whichever branch is taken. -/
theorem check_snd_eq_clean (now : ℚ) (ps : List Period) (required_time : ℚ) :
    (check_duty_cycle_limits now ps required_time).2
      = clean_old_usage_periods now ps := by
  unfold check_duty_cycle_limits
  by_cases hb : required_time > MAX_CONTINUOUS_RUNTIME
  · simp [hb]
  · by_cases hg : get_current_duty_cycle_usage now (clean_old_usage_periods now ps)
        + required_time > DUTY_CYCLE_MAX_ON_TIME
    · simp [hb, hg]
    · simp [hb, hg]

/-- A period dropped by the prune has zero clamped overlap with the window. -/
theorem period_overlap_eq_zero_of_old (now : ℚ) (p : Period)
    (h : ¬ p.2.1 > now - DUTY_CYCLE_PERIOD) : period_overlap now p = 0 := by
  unfold period_overlap
  have h1 : min p.2.1 now ≤ now - DUTY_CYCLE_PERIOD := le_trans (min_le_left _ _) (not_lt.mp h)
  have h2 : now - DUTY_CYCLE_PERIOD ≤ max p.1 (now - DUTY_CYCLE_PERIOD) := le_max_right _ _
  simp only [if_neg (not_lt.mpr (le_trans h1 h2))]

/-- Pruning is idempotent (it is a filter with a fixed predicate). -/
theorem clean_idem (now : ℚ) (ps : List Period) :
    clean_old_usage_periods now (clean_old_usage_periods now ps)
      = clean_old_usage_periods now ps := by
  unfold clean_old_usage_periods
  rw [List.filter_filter]
  congr 1
  funext p
  rw [Bool.and_self]

/-- Pruning does not change the computed usage (the usage computation prunes
again internally, and pruning is idempotent). -/
theorem usage_clean_eq (now : ℚ) (ps : List Period) :
    get_current_duty_cycle_usage now (clean_old_usage_periods now ps)
      = get_current_duty_cycle_usage now ps := by
  unfold get_current_duty_cycle_usage
  rw [clean_idem]

/-- C1. Authorization soundness of `check_duty_cycle_limits`: the check never
returns valid when `current_usage(now) + required_time > DUTY_CYCLE_MAX_ON_TIME`
(120 s), and never returns invalid when that sum is at most 120 s and
`required_time` is at most `MAX_CONTINUOUS_RUNTIME` (30 s). -/
theorem c1_check_duty_cycle_limits_sound (now required_time : ℚ) (ps : List Period) :
    (get_current_duty_cycle_usage now ps + required_time > DUTY_CYCLE_MAX_ON_TIME →
      (check_duty_cycle_limits now ps required_time).1 = false)
    ∧ (get_current_duty_cycle_usage now ps + required_time ≤ DUTY_CYCLE_MAX_ON_TIME →
        required_time ≤ MAX_CONTINUOUS_RUNTIME →
        (check_duty_cycle_limits now ps required_time).1 = true) := by
  simp only [check_duty_cycle_limits, usage_clean_eq]
  constructor
  · intro hgt
    by_cases hb : required_time > MAX_CONTINUOUS_RUNTIME
    · simp [hb]
    · simp [hb, hgt]
  · intro hle hburst
    have hb : ¬ required_time > MAX_CONTINUOUS_RUNTIME := not_lt.mpr hburst
    have hg : ¬ get_current_duty_cycle_usage now ps + required_time > DUTY_CYCLE_MAX_ON_TIME :=
      not_lt.mpr hle
    simp [hb, hg]

/-- Witness for C1 at concrete inputs: an empty ledger authorizes a 10 s
request, and rejects a 200 s worth of usage plus request. -/
theorem c1_witness :
    (check_duty_cycle_limits 0 [] 10).1 = true
      ∧ (check_duty_cycle_limits 0 [(-50, -10, 40), (-300, -200, 100)] 30).1 = false := by
  constructor
  · exact (c1_check_duty_cycle_limits_sound 0 10 []).2
      (by norm_num [get_current_duty_cycle_usage, clean_old_usage_periods,
        DUTY_CYCLE_MAX_ON_TIME])
      (by norm_num [MAX_CONTINUOUS_RUNTIME])
  · exact (c1_check_duty_cycle_limits_sound 0 30 [(-50, -10, 40), (-300, -200, 100)]).1
      (by norm_num [get_current_duty_cycle_usage, clean_old_usage_periods, period_overlap,
        DUTY_CYCLE_MAX_ON_TIME, DUTY_CYCLE_PERIOD])

/-! ## Queue-based duty cycle (scripts/desk_control_prefect.py)

The Prefect variant tracks ON periods in a chronological queue of
`(start_time, end_time)` pairs and rejects with an explicit wait hint. -/

/-- `clean_old_periods` (desk_control_prefect.py): pop from the front while
the front period ended before `now - DUTY_CYCLE_PERIOD`. -/
def clean_old_periods (now : ℚ) : List (ℚ × ℚ) → List (ℚ × ℚ)
  | [] => []
  | p :: rest =>
      if p.2 < now - DUTY_CYCLE_PERIOD then clean_old_periods now rest else p :: rest

/-- `get_current_usage` (desk_control_prefect.py): prune, then sum the raw
durations of the remaining periods. -/
def get_current_usage (now : ℚ) (q : List (ℚ × ℚ)) : ℚ :=
  ((clean_old_periods now q).map fun p => p.2 - p.1).sum

/-- `get_remaining_duty_time` (desk_control_prefect.py). -/
def get_remaining_duty_time_q (now : ℚ) (q : List (ℚ × ℚ)) : ℚ :=
  max 0 (DUTY_CYCLE_MAX_ON_TIME - get_current_usage now q)

/-- Outcome of `check_timing_limits` (desk_control_prefect.py): either the
check passes, or a `ValueError` is raised; the two error messages carry the
offending duration resp. the computed wait time. -/
inductive TimingResult
  | ok
  | continuousLimitError (required : ℚ)
  | dutyCycleError (wait : ℚ)
deriving DecidableEq

/-- `check_timing_limits` (desk_control_prefect.py). -/
def check_timing_limits (now : ℚ) (q : List (ℚ × ℚ)) (required_time : ℚ) :
    TimingResult :=
  if required_time > MAX_CONTINUOUS_RUNTIME then .continuousLimitError required_time
  else
    let remaining_time := get_remaining_duty_time_q now q
    if remaining_time ≥ required_time then .ok
    else .dutyCycleError (required_time - remaining_time)

/-- C3. A request within the burst ceiling that exceeds the remaining
duty-cycle budget is rejected with a wait hint equal to
`required_time - remaining(now)`; in particular, with a single 100 s usage
period `[T-100, T]` recorded in an otherwise empty ledger, a 30 s request at
`T + 1` is rejected with a wait hint of exactly 10 s. -/
theorem c3_wait_hint (T : ℚ) :
    (∀ now required_time : ℚ, ∀ q : List (ℚ × ℚ),
        required_time ≤ MAX_CONTINUOUS_RUNTIME →
        get_remaining_duty_time_q now q < required_time →
        check_timing_limits now q required_time
          = .dutyCycleError (required_time - get_remaining_duty_time_q now q))
    ∧ check_timing_limits (T + 1) [(T - 100, T)] 30 = .dutyCycleError 10 := by
  have hgen : ∀ now required_time : ℚ, ∀ q : List (ℚ × ℚ),
      required_time ≤ MAX_CONTINUOUS_RUNTIME →
      get_remaining_duty_time_q now q < required_time →
      check_timing_limits now q required_time
        = .dutyCycleError (required_time - get_remaining_duty_time_q now q) := by
    intro now required_time q hburst hrem
    unfold check_timing_limits
    rw [if_neg (not_lt.mpr hburst), if_neg (not_le.mpr hrem)]
  refine ⟨hgen, ?_⟩
  have husage : get_current_usage (T + 1) [(T - 100, T)] = 100 := by
    unfold get_current_usage clean_old_periods
    rw [if_neg (by unfold DUTY_CYCLE_PERIOD; linarith)]
    norm_num
  have hrem : get_remaining_duty_time_q (T + 1) [(T - 100, T)] = 20 := by
    unfold get_remaining_duty_time_q
    rw [husage]
    norm_num [DUTY_CYCLE_MAX_ON_TIME]
  rw [hgen (T + 1) 30 [(T - 100, T)] (by norm_num [MAX_CONTINUOUS_RUNTIME])
    (by rw [hrem]; norm_num), hrem]
  norm_num

/-- Witness for C3 at `T = 0`: the concrete rejection carries wait hint 10. -/
theorem c3_witness :
    check_timing_limits 1 [(-100, 0)] 30 = .dutyCycleError 10 := by
  have h := (c3_wait_hint 0).2
  norm_num at h
  exact h

/-! ## Chunking (`move_with_chunking`, scripts/desk_control_prefect.py)

The chunk-building loop: `while remaining > 0: chunk = min(remaining,
MAX_CONTINUOUS_RUNTIME); append; remaining -= chunk`. -/

/-- The list `chunks` built by the loop in `move_with_chunking`. -/
def chunk_sizes (remaining : ℚ) : List ℚ :=
  if h0 : remaining ≤ 0 then []
  else if h30 : remaining ≤ MAX_CONTINUOUS_RUNTIME then [remaining]
  else MAX_CONTINUOUS_RUNTIME :: chunk_sizes (remaining - MAX_CONTINUOUS_RUNTIME)
termination_by (Int.ceil remaining).toNat
decreasing_by
  have h30q : (30 : ℚ) < remaining := by
    simpa [MAX_CONTINUOUS_RUNTIME] using not_le.mp h30
  have hc : Int.ceil (remaining - MAX_CONTINUOUS_RUNTIME) = Int.ceil remaining - 30 := by
    unfold MAX_CONTINUOUS_RUNTIME
    rw [show (30 : ℚ) = ((30 : ℤ) : ℚ) by norm_num, Int.ceil_sub_int]
  have hge : (30 : ℤ) < Int.ceil remaining := by
    have := Int.lt_ceil.mpr (show ((30 : ℤ) : ℚ) < remaining by exact_mod_cast h30q)
    exact this
  rw [hc]
  omega

/-- Durations on which `move_with_chunking` consults the ledger
(`check_timing_limits`): none on the short-movement path, the chunk list
otherwise. -/
def ledger_checked_durations (total_time : ℚ) : List ℚ :=
  if total_time ≤ MAX_CONTINUOUS_RUNTIME then [] else chunk_sizes total_time

/-- Burst durations actually executed by `move_with_chunking`: the whole
movement at once when it fits in one burst, else the chunk list. -/
def executed_bursts (total_time : ℚ) : List ℚ :=
  if total_time ≤ MAX_CONTINUOUS_RUNTIME then [total_time] else chunk_sizes total_time

/-- One step of the execution schedule of `move_with_chunking`: a motor
burst, or the inter-chunk rest sleep. -/
inductive ChunkEvent
  | burst (duration : ℚ)
  | rest (duration : ℚ)
deriving DecidableEq

/-- The schedule executed by the chunk loop of `move_with_chunking`: each
chunk is a burst, and the rest sleep runs only when further chunks remain
(`if i < len(chunks) - 1`). -/
def chunk_schedule (rest_between_chunks : ℚ) : List ℚ → List ChunkEvent
  | [] => []
  | [c] => [.burst c]
  | c :: c2 :: cs => .burst c :: .rest rest_between_chunks :: chunk_schedule rest_between_chunks (c2 :: cs)

/-- Every chunk built by the loop is positive and at most the burst ceiling,
and the chunks sum to the requested total. -/
theorem chunk_sizes_spec (t : ℚ) (ht : 0 < t) :
    (∀ c ∈ chunk_sizes t, 0 < c ∧ c ≤ MAX_CONTINUOUS_RUNTIME)
      ∧ (chunk_sizes t).sum = t := by
  induction t using chunk_sizes.induct with
  | case1 t h0 => exact absurd ht (not_lt.mpr h0)
  | case2 t h0 h30 =>
    rw [chunk_sizes, dif_neg h0, dif_pos h30]
    refine ⟨?_, by simp⟩
    intro c hc
    rw [List.mem_singleton] at hc
    exact hc ▸ ⟨ht, h30⟩
  | case3 t h0 h30 ih =>
    have h30q : MAX_CONTINUOUS_RUNTIME < t := not_le.mp h30
    have hpos : 0 < t - MAX_CONTINUOUS_RUNTIME := by linarith
    obtain ⟨ihmem, ihsum⟩ := ih hpos
    rw [chunk_sizes, dif_neg h0, dif_neg h30]
    constructor
    · intro c hc
      rcases List.mem_cons.mp hc with hc | hc
      · subst hc
        exact ⟨by norm_num [MAX_CONTINUOUS_RUNTIME], le_refl _⟩
      · exact ihmem c hc
    · rw [List.sum_cons, ihsum]
      ring

/-- The chunk schedule places the rest exactly between consecutive bursts:
it equals the burst list with the rest interspersed (so never after the
last burst). -/
theorem chunk_schedule_intersperse (r : ℚ) (cs : List ℚ) :
    chunk_schedule r cs = List.intersperse (.rest r) (cs.map .burst) := by
  induction cs with
  | nil => rfl
  | cons c cs ih =>
    cases cs with
    | nil => rfl
    | cons c2 cs2 =>
      rw [chunk_schedule, ih]
      simp [List.intersperse]

/-- Evaluating the chunk loop on a 70 s movement. -/
theorem chunk_sizes_70 : chunk_sizes 70 = [30, 30, 10] := by
  have s10 : chunk_sizes 10 = [10] := by
    rw [chunk_sizes]
    norm_num [MAX_CONTINUOUS_RUNTIME]
  have s40 : chunk_sizes 40 = [30, 10] := by
    rw [chunk_sizes]
    norm_num [MAX_CONTINUOUS_RUNTIME, s10]
  rw [chunk_sizes]
  norm_num [MAX_CONTINUOUS_RUNTIME, s40]

/-- C5. For every positive total duration, `move_with_chunking` executes
bursts that are each positive and at most `MAX_CONTINUOUS_RUNTIME`, whose
sum is exactly the total; the rest appears only between consecutive chunks
(the schedule is the burst list interspersed with the rest, so no rest
follows the last chunk); and a 70 s movement is chunked as `[30, 30, 10]`. -/
theorem c5_chunking_conservation (total_time rest_between_chunks : ℚ)
    (ht : 0 < total_time) :
    (∀ c ∈ executed_bursts total_time, 0 < c ∧ c ≤ MAX_CONTINUOUS_RUNTIME)
      ∧ (executed_bursts total_time).sum = total_time
      ∧ chunk_schedule rest_between_chunks (executed_bursts total_time)
          = List.intersperse (.rest rest_between_chunks)
              ((executed_bursts total_time).map .burst)
      ∧ chunk_sizes 70 = [30, 30, 10] := by
  refine ⟨?_, ?_, chunk_schedule_intersperse _ _, chunk_sizes_70⟩
  · intro c hc
    unfold executed_bursts at hc
    by_cases hle : total_time ≤ MAX_CONTINUOUS_RUNTIME
    · rw [if_pos hle, List.mem_singleton] at hc
      exact hc ▸ ⟨ht, hle⟩
    · rw [if_neg hle] at hc
      exact (chunk_sizes_spec total_time ht).1 c hc
  · unfold executed_bursts
    by_cases hle : total_time ≤ MAX_CONTINUOUS_RUNTIME
    · rw [if_pos hle, List.sum_cons, List.sum_nil, add_zero]
    · rw [if_neg hle]
      exact (chunk_sizes_spec total_time ht).2

/-- Witness for C5 at total 70, rest 2. -/
theorem c5_witness :
    (executed_bursts 70).sum = 70 ∧ chunk_sizes 70 = [30, 30, 10] :=
  ⟨(c5_chunking_conservation 70 2 (by norm_num)).2.1,
   (c5_chunking_conservation 70 2 (by norm_num)).2.2.2⟩

/-- C4 (amended). The chunking planner `move_with_chunking` never hands the
ledger check a duration above the burst ceiling: every duration it passes to
`check_timing_limits` is at most `MAX_CONTINUOUS_RUNTIME`, and the check
never returns the continuous-runtime (burst-too-long) rejection for it.
(The non-chunking planner `desk_controller.move_to_height` violates the
original claim; see the counterexample.) -/
theorem c4_chunking_precheck (total_time : ℚ) (htotal : 0 < total_time) :
    ∀ d ∈ ledger_checked_durations total_time,
      d ≤ MAX_CONTINUOUS_RUNTIME
        ∧ ∀ (now : ℚ) (q : List (ℚ × ℚ)),
            ∀ r : ℚ, check_timing_limits now q d ≠ .continuousLimitError r := by
  intro d hd
  unfold ledger_checked_durations at hd
  by_cases hle : total_time ≤ MAX_CONTINUOUS_RUNTIME
  · rw [if_pos hle] at hd
    exact absurd hd (List.not_mem_nil d)
  · rw [if_neg hle] at hd
    have hdle : d ≤ MAX_CONTINUOUS_RUNTIME :=
      ((chunk_sizes_spec total_time htotal).1 d hd).2
    refine ⟨hdle, ?_⟩
    intro now q r
    unfold check_timing_limits
    rw [if_neg (not_lt.mpr hdle)]
    by_cases hrem : get_remaining_duty_time_q now q ≥ d
    · simp [hrem]
    · simp [hrem]

/-! ## State persistence (`load_state`, scripts/duty_cycle.py)

The JSON state file is modelled as `Option RawFileState`: `none` is a
missing file (`FileNotFoundError`); in a present file each field is
individually present or absent, and a present `last_position` field may
hold `null` (`none`) or a number. -/

/-- In-memory state dictionary produced by `load_state`. -/
structure LifterState where
  usage_periods : List Period
  last_position : Option ℚ
  total_up_time : ℚ
deriving DecidableEq

/-- Contents of an existing `lifter_state.json`, field by field. -/
structure RawFileState where
  usage_periods : Option (List Period)
  last_position : Option (Option ℚ)
  total_up_time : Option ℚ

/-- `load_state` (duty_cycle.py): on `FileNotFoundError` return the default
state; otherwise fill in each missing key with its default
(`last_position` defaults to `LOWEST_HEIGHT`). -/
def load_state (file : Option RawFileState) : LifterState :=
  match file with
  | none =>
      { usage_periods := [], last_position := some LOWEST_HEIGHT, total_up_time := 0 }
  | some raw =>
      { usage_periods := raw.usage_periods.getD []
        last_position := raw.last_position.getD (some LOWEST_HEIGHT)
        total_up_time := raw.total_up_time.getD 0 }

/-- Counterexample to C6 as stated: with the state file missing,
`load_state` does not return an unknown (`None`) last position — it
defaults the position to `LOWEST_HEIGHT` (23.7 in). -/
theorem c6_counterexample :
    ¬ ((load_state none).usage_periods = []
        ∧ (load_state none).last_position = none
        ∧ (load_state none).total_up_time = 0) := by
  intro h
  have hpos : (load_state none).last_position = some LOWEST_HEIGHT := rfl
  rw [h.2.1] at hpos
  exact Option.noConfusion hpos

/-- C6 (amended). With the state file missing, `load_state` returns an empty
ledger, zero cumulative up-time, and a last position defaulted to
`LOWEST_HEIGHT` (23.7 in) rather than unknown; when the file exists, each
missing field is defaulted to that same value independently of the others,
and each present field is kept. -/
theorem c6_load_state_defaults :
    ((load_state none).usage_periods = []
      ∧ (load_state none).last_position = some LOWEST_HEIGHT
      ∧ (load_state none).total_up_time = 0)
    ∧ ∀ raw : RawFileState,
        (raw.usage_periods = none → (load_state (some raw)).usage_periods = [])
        ∧ (∀ ps, raw.usage_periods = some ps → (load_state (some raw)).usage_periods = ps)
        ∧ (raw.last_position = none →
            (load_state (some raw)).last_position = some LOWEST_HEIGHT)
        ∧ (∀ lp, raw.last_position = some lp → (load_state (some raw)).last_position = lp)
        ∧ (raw.total_up_time = none → (load_state (some raw)).total_up_time = 0)
        ∧ (∀ ut, raw.total_up_time = some ut → (load_state (some raw)).total_up_time = ut) := by
  refine ⟨⟨rfl, rfl, rfl⟩, ?_⟩
  intro raw
  refine ⟨fun h => ?_, fun ps h => ?_, fun h => ?_, fun lp h => ?_, fun h => ?_, fun ut h => ?_⟩
  all_goals simp [load_state, h]

/-- Witness for C6 (amended) on a file holding only a usage period list:
the other two fields are defaulted, the present field is kept. -/
theorem c6_witness :
    (load_state (some ⟨some [(0, 1, 1)], none, none⟩)).usage_periods = [(0, 1, 1)]
      ∧ (load_state (some ⟨some [(0, 1, 1)], none, none⟩)).last_position = some LOWEST_HEIGHT
      ∧ (load_state (some ⟨some [(0, 1, 1)], none, none⟩)).total_up_time = 0 :=
  ⟨(c6_load_state_defaults.2 ⟨some [(0, 1, 1)], none, none⟩).2.1 [(0, 1, 1)] rfl,
   (c6_load_state_defaults.2 ⟨some [(0, 1, 1)], none, none⟩).2.2.1 rfl,
   (c6_load_state_defaults.2 ⟨some [(0, 1, 1)], none, none⟩).2.2.2.2.1 rfl⟩

/-! ## GPIO relay driver (`press_up`, pi/lg07_lift/lift_driver.py)

Relays are active-low: a released line is driven HIGH. We record for each
line whether it is released (HIGH). `press_up` runs
`_release_all(); output(PIN_UP, LOW); time.sleep(s); _release_all()` inside
a lock, with no try/finally: if the sleep raises, the trailing release is
skipped and the exception propagates. `sleep_ok = false` models an
exception (e.g. `KeyboardInterrupt`) raised during `time.sleep`. -/

/-- Release state of the two relay GPIO lines (`true` = released/HIGH). -/
structure GpioLines where
  up_released : Bool
  down_released : Bool
deriving DecidableEq

/-- `press_up` (lift_driver.py), after `_init_gpio`: returns the line state
when control leaves the function and whether it returned normally
(`false` = the exception from the sleep propagates to the caller). -/
def press_up_run (sleep_ok : Bool) (g : GpioLines) : GpioLines × Bool :=
  let g1 : GpioLines := { up_released := true, down_released := true }
  let g2 : GpioLines := { g1 with up_released := false }
  if sleep_ok then
    let g3 : GpioLines := { up_released := true, down_released := true }
    (g3, true)
  else
    (g2, false)

/-- C9 fails on `press_up`: on the normal exit both lines end released, but
when an exception is raised during the timed sleep, control returns to the
caller with the UP relay still driven (not released) — `press_up` has no
try/finally around the sleep. -/
theorem c9_press_up_not_released_on_exception :
    (∀ g : GpioLines, ((press_up_run true g).1.up_released = true
        ∧ (press_up_run true g).1.down_released = true))
    ∧ (press_up_run false ⟨true, true⟩).1.up_released = false
    ∧ (press_up_run false ⟨true, true⟩).2 = false := by
  exact ⟨fun g => ⟨rfl, rfl⟩, rfl, rfl⟩

/-! ## Movement planner (`move_to_height`, scripts/desk_controller.py)

`move_to_height` loads the state, resolves the current height, validates,
runs the duty-cycle check, executes the burst via `movement_control`, records
the usage period and persists. The wall clock is a `now` parameter; the
persisted file is represented by the `saves` effect log.

The actuation functions `move_up` / `move_down` live in
`movement_control.py`, which is not in the repository. Modelled from the
spec: the missing `move_up(t)` / `move_down(t)` drive the line for the
requested time and return the measured `(start_time, end_time,
actual_duration)`; we model the measured burst as `(now, now + t, t)`
(scheduling jitter not modelled), and `actuator_ok = false` models the
actuator raising an exception instead of completing the burst. -/

/-- What a call to `desk_controller.move_to_height` did. -/
inductive MoveResult
  /-- The out-of-range `ValueError` raised before the `try` block; it
  propagates to the caller uncaught. -/
  | raised
  /-- An exception was caught by the `except` block: the call returns a
  dict with `success: False`. -/
  | failed
  /-- Within tolerance of the target: returns `success: True`,
  `movement: "none"`. -/
  | noop
  /-- A completed movement: returns `success: True` with the direction and
  the recorded burst duration. -/
  | moved (is_up : Bool) (duration : ℚ)
deriving DecidableEq

/-- Effect log of one `move_to_height` call. -/
structure MoveEffects where
  /-- durations handed to `check_duty_cycle_limits`, in order. -/
  ledger_checks : List ℚ
  /-- completed actuator bursts `(is_up, duration)`, in order. -/
  actuations : List (Bool × ℚ)
  /-- states passed to `save_state`, in order. -/
  saves : List LifterState
deriving DecidableEq

/-- `get_duty_cycle_status` (duty_cycle.py) as a state transformer: the
usage computation prunes the in-memory period list in place; the numeric
snapshot itself is not needed by the claims. -/
def get_duty_cycle_status_state (now : ℚ) (st : LifterState) : LifterState :=
  { st with usage_periods := clean_old_usage_periods now st.usage_periods }

/-- The required on-time computed by `move_to_height`:
`delta / UP_RATE` when moving up, `abs(delta) / DOWN_RATE` when moving
down. -/
def movement_required_time (delta : ℚ) : ℚ :=
  if delta > 0 then delta / UP_RATE else |delta| / DOWN_RATE

/-- `move_to_height` (desk_controller.py). `st` is the state `load_state`
returned; the result is (outcome, final in-memory state, effect log). -/
def move_to_height (target_height : ℚ) (current_height : Option ℚ)
    (st : LifterState) (now : ℚ) (actuator_ok : Bool) :
    MoveResult × LifterState × MoveEffects :=
  if ¬ (LOWEST_HEIGHT ≤ target_height ∧ target_height ≤ HIGHEST_HEIGHT) then
    (.raised, st, ⟨[], [], []⟩)
  else
    match current_height.orElse (fun _ => st.last_position) with
    | none => (.failed, st, ⟨[], [], []⟩)
    | some current =>
      let delta := target_height - current
      if |delta| < 1 / 100 then
        (.noop, get_duty_cycle_status_state now st, ⟨[], [], []⟩)
      else
        let is_up := decide (delta > 0)
        let required_time := movement_required_time delta
        let checked := check_duty_cycle_limits now st.usage_periods required_time
        let st1 : LifterState := { st with usage_periods := checked.2 }
        if ¬ checked.1 then
          (.failed, st1, ⟨[required_time], [], []⟩)
        else if ¬ actuator_ok then
          (.failed, st1, ⟨[required_time], [], []⟩)
        else
          let start_time := now
          let end_time := now + required_time
          let actual_duration := required_time
          let st2 : LifterState :=
            { st1 with
                usage_periods :=
                  record_usage_period st1.usage_periods start_time end_time actual_duration
                total_up_time :=
                  if delta > 0 then st1.total_up_time + actual_duration
                  else st1.total_up_time }
          let st3 : LifterState := { st2 with last_position := some target_height }
          (.moved is_up actual_duration, get_duty_cycle_status_state now st3,
            ⟨[required_time], [(is_up, actual_duration)], [st3]⟩)

/-- Counterexample to C7 as stated: a no-op request (target within 0.01 in
of the current height) succeeds, but it is not true that no period is
pruned — computing the duty-cycle status for the result prunes a stale
period from the in-memory ledger. -/
theorem c7_counterexample :
    (move_to_height 30 none ⟨[(-2000, -1900, 100)], some 30, 5⟩ 0 true).1 = .noop
      ∧ (move_to_height 30 none ⟨[(-2000, -1900, 100)], some 30, 5⟩ 0 true).2.1.usage_periods
          = []
      ∧ LifterState.usage_periods ⟨[(-2000, -1900, 100)], some 30, 5⟩ ≠ [] := by
  refine ⟨?_, ?_, by simp⟩ <;>
    norm_num [move_to_height, get_duty_cycle_status_state, clean_old_usage_periods,
      LOWEST_HEIGHT, HIGHEST_HEIGHT, DUTY_CYCLE_PERIOD, Option.orElse]

/-- C7 (amended). A request whose target is within the 0.01 in tolerance of
the resolved current height returns the no-op success: no usage period is
appended, nothing is saved, the ledger is never consulted, no actuation
runs, and the last position and cumulative up-time are unchanged; the
status snapshot does, however, prune expired periods from the in-memory
copy (in-window periods are all retained, and the persisted file is
untouched since nothing is saved). -/
theorem c7_noop_frame (target_height now : ℚ) (current_height : Option ℚ)
    (st : LifterState) (actuator_ok : Bool) (c : ℚ)
    (hrange : LOWEST_HEIGHT ≤ target_height ∧ target_height ≤ HIGHEST_HEIGHT)
    (hcur : current_height.orElse (fun _ => st.last_position) = some c)
    (htol : |target_height - c| < 1 / 100) :
    (move_to_height target_height current_height st now actuator_ok).1 = .noop
      ∧ (move_to_height target_height current_height st now actuator_ok).2.2
          = ⟨[], [], []⟩
      ∧ (move_to_height target_height current_height st now actuator_ok).2.1
          = { st with usage_periods := clean_old_usage_periods now st.usage_periods } := by
  unfold move_to_height
  rw [if_neg (not_not_intro hrange)]
  simp only [hcur]
  rw [if_pos htol]
  exact ⟨rfl, rfl, rfl⟩

/-- Witness for C7 (amended): a concrete in-tolerance request. -/
theorem c7_witness :
    (move_to_height 30 (some 30) ⟨[], some 25, 0⟩ 0 true).1 = .noop
      ∧ (move_to_height 30 (some 30) ⟨[], some 25, 0⟩ 0 true).2.2 = ⟨[], [], []⟩ := by
  have h := c7_noop_frame 30 0 (some 30) ⟨[], some 25, 0⟩ true 30
    (by norm_num [LOWEST_HEIGHT, HIGHEST_HEIGHT]) rfl (by norm_num)
  exact ⟨h.1, h.2.1⟩

/-- Appending a period that still reaches into the window commutes with the
prune. -/
theorem clean_append (now : ℚ) (ps : List Period) (p : Period)
    (hp : p.2.1 > now - DUTY_CYCLE_PERIOD) :
    clean_old_usage_periods now (ps ++ [p]) = clean_old_usage_periods now ps ++ [p] := by
  unfold clean_old_usage_periods
  rw [List.filter_append]
  simp [hp]

/-- C8. Every completed movement appends the executed burst to the ledger
regardless of direction, while `total_up_time` grows only for an UP
movement: with a valid duty-cycle check and a working actuator, the final
state's period list is the pruned original plus the new burst, and
`total_up_time` is unchanged for DOWN and increased by the burst duration
for UP. -/
theorem c8_record_and_up_time (target_height now : ℚ) (current_height : Option ℚ)
    (st : LifterState) (c : ℚ)
    (hrange : LOWEST_HEIGHT ≤ target_height ∧ target_height ≤ HIGHEST_HEIGHT)
    (hcur : current_height.orElse (fun _ => st.last_position) = some c)
    (htol : ¬ |target_height - c| < 1 / 100)
    (hcheck : (check_duty_cycle_limits now st.usage_periods
        (movement_required_time (target_height - c))).1 = true) :
    (move_to_height target_height current_height st now true).1
        = .moved (decide (target_height - c > 0))
            (movement_required_time (target_height - c))
      ∧ (move_to_height target_height current_height st now true).2.1.usage_periods
          = clean_old_usage_periods now st.usage_periods
              ++ [(now, now + movement_required_time (target_height - c),
                    movement_required_time (target_height - c))]
      ∧ (move_to_height target_height current_height st now true).2.1.total_up_time
          = (if target_height - c > 0 then
              st.total_up_time + movement_required_time (target_height - c)
            else st.total_up_time)
      ∧ (move_to_height target_height current_height st now true).2.1.last_position
          = some target_height
      ∧ (move_to_height target_height current_height st now true).2.2.actuations
          = [(decide (target_height - c > 0),
              movement_required_time (target_height - c))] := by
  have hreq_pos : 0 < movement_required_time (target_height - c) := by
    have habs : (1 : ℚ) / 100 ≤ |target_height - c| := not_lt.mp htol
    unfold movement_required_time
    by_cases hdir : target_height - c > 0
    · rw [if_pos hdir]
      unfold UP_RATE
      positivity
    · rw [if_neg hdir]
      have : (0 : ℚ) < |target_height - c| := by linarith
      unfold DOWN_RATE
      positivity
  have hnew : (now + movement_required_time (target_height - c))
      > now - DUTY_CYCLE_PERIOD := by
    unfold DUTY_CYCLE_PERIOD
    linarith
  unfold move_to_height
  rw [if_neg (not_not_intro hrange)]
  simp only [hcur]
  rw [if_neg htol]
  simp only [hcheck, not_true, eq_self_iff_true, not_true_eq_false,
    if_false, ite_false, ite_true, get_duty_cycle_status_state, record_usage_period]
  refine ⟨trivial, ?_, trivial, trivial, trivial⟩
  rw [check_snd_eq_clean, clean_append now _ _ hnew, clean_idem]

/-- Witness for C8: a concrete completed DOWN movement (target 30 in from
31 in) appends its burst of 20/11 s to the ledger and leaves
`total_up_time` at its old value 7. -/
theorem c8_witness :
    (move_to_height 30 (some 31) ⟨[], some 25, 7⟩ 0 true).2.1.total_up_time = 7
      ∧ (move_to_height 30 (some 31) ⟨[], some 25, 7⟩ 0 true).2.1.usage_periods
          = [(0, 20 / 11, 20 / 11)] := by
  have h := c8_record_and_up_time 30 0 (some 31) ⟨[], some 25, 7⟩ 31
    (by norm_num [LOWEST_HEIGHT, HIGHEST_HEIGHT]) rfl (by norm_num)
    (by norm_num [check_duty_cycle_limits, clean_old_usage_periods,
      get_current_duty_cycle_usage, movement_required_time, DOWN_RATE,
      MAX_CONTINUOUS_RUNTIME, DUTY_CYCLE_MAX_ON_TIME])
  constructor
  · rw [h.2.2.1]
    norm_num
  · rw [h.2.1]
    norm_num [clean_old_usage_periods, movement_required_time, DOWN_RATE]

/-- C10. A call to `move_to_height` that does not complete a movement —
whether it returns a `success: False` dict (unknown position, duty-cycle or
burst rejection, actuator exception) or raises the out-of-range error —
never invokes `save_state`, so the persisted state file is exactly what it
was before the call. -/
theorem c10_no_save_on_failure (target_height : ℚ) (current_height : Option ℚ)
    (st : LifterState) (now : ℚ) (actuator_ok : Bool)
    (h : (move_to_height target_height current_height st now actuator_ok).1 = .failed
        ∨ (move_to_height target_height current_height st now actuator_ok).1 = .raised) :
    (move_to_height target_height current_height st now actuator_ok).2.2.saves = [] := by
  unfold move_to_height at h ⊢
  by_cases hr : ¬ (LOWEST_HEIGHT ≤ target_height ∧ target_height ≤ HIGHEST_HEIGHT)
  · rw [if_pos hr]
  · rw [if_neg hr] at h ⊢
    cases hc : current_height.orElse fun _ => st.last_position with
    | none =>
      simp only [hc]
    | some c =>
      simp only [hc] at h ⊢
      by_cases htol : |target_height - c| < 1 / 100
      · rw [if_pos htol] at h
        exact h.elim (fun h => MoveResult.noConfusion h) (fun h => MoveResult.noConfusion h)
      · rw [if_neg htol] at h ⊢
        by_cases hchk : ¬ (check_duty_cycle_limits now st.usage_periods
            (movement_required_time (target_height - c))).1 = true
        · rw [if_pos hchk]
        · rw [if_neg hchk] at h ⊢
          by_cases hak : ¬ actuator_ok = true
          · rw [if_pos hak]
          · rw [if_neg hak] at h
            exact h.elim (fun h => MoveResult.noConfusion h) (fun h => MoveResult.noConfusion h)

/-- Witness for C10: a request with no current height and no stored
position fails and saves nothing. -/
theorem c10_witness :
    (move_to_height 30 none ⟨[], none, 0⟩ 0 true).2.2.saves = [] :=
  c10_no_save_on_failure 30 none ⟨[], none, 0⟩ 0 true
    (Or.inl (by norm_num [move_to_height, LOWEST_HEIGHT, HIGHEST_HEIGHT, Option.orElse]))

/-- Counterexample to C4 as stated: `desk_controller.move_to_height`
performs no chunking — moving from the bottom (23.7 in) to the top
(54.5 in) needs 1540/27 ≈ 57 s of on-time, which it hands directly to
`check_duty_cycle_limits` (exceeding the 30 s burst ceiling), and the call
surfaces the burst-too-long rejection as a failure. -/
theorem c4_counterexample :
    (move_to_height (545 / 10) (some (237 / 10)) ⟨[], some (237 / 10), 0⟩ 0 true).2.2.ledger_checks
        = [1540 / 27]
      ∧ (1540 / 27 : ℚ) > MAX_CONTINUOUS_RUNTIME
      ∧ (move_to_height (545 / 10) (some (237 / 10)) ⟨[], some (237 / 10), 0⟩ 0 true).1
          = .failed := by
  refine ⟨?_, by norm_num [MAX_CONTINUOUS_RUNTIME], ?_⟩ <;>
    · norm_num [move_to_height, LOWEST_HEIGHT, HIGHEST_HEIGHT, MAX_CONTINUOUS_RUNTIME,
        movement_required_time, UP_RATE, check_duty_cycle_limits, clean_old_usage_periods,
        get_current_duty_cycle_usage, DUTY_CYCLE_MAX_ON_TIME, Option.orElse]
      rw [abs_of_nonneg (by norm_num : (0 : ℚ) ≤ 154 / 5),
        if_neg (by norm_num : ¬ (154 : ℚ) / 5 < 1 / 100)]

/-- Witness for C4 (amended): the first 30 s chunk of a 70 s movement is
within the ceiling and never draws the continuous-runtime rejection. -/
theorem c4_witness :
    (30 : ℚ) ≤ MAX_CONTINUOUS_RUNTIME
      ∧ check_timing_limits 0 [] 30 ≠ .continuousLimitError 30 := by
  have hmem : (30 : ℚ) ∈ ledger_checked_durations 70 := by
    unfold ledger_checked_durations
    rw [if_neg (by norm_num [MAX_CONTINUOUS_RUNTIME]), chunk_sizes_70]
    simp
  have h := c4_chunking_precheck 70 (by norm_num) 30 hmem
  exact ⟨h.1, h.2 0 [] 30⟩

/-! ## Window correctness of the usage computation (C2)

Specification side: the measure of `[now - window_period, now] ∩ ⋃intervals`
over the reals, with each recorded period `[start, end, duration]` read as
the real interval `[start, end]`. -/

/-- The real-line interval covered by one recorded usage period. -/
def period_set (p : Period) : Set ℝ := Set.Icc (p.1 : ℝ) (p.2.1 : ℝ)

/-- The union of the intervals covered by the recorded periods. -/
def periods_union (ps : List Period) : Set ℝ := ⋃ p ∈ ps, period_set p

/-- The sliding evaluation window `[now - window_period, now]`. -/
def window_set (now : ℚ) : Set ℝ :=
  Set.Icc ((now : ℝ) - (DUTY_CYCLE_PERIOD : ℝ)) (now : ℝ)

/-- Two periods that do not overlap (in either order). -/
def periods_disjoint (p q : Period) : Prop := p.2.1 ≤ q.1 ∨ q.2.1 ≤ p.1

theorem periods_union_nil : periods_union [] = ∅ := by
  simp [periods_union]

theorem periods_union_cons (p : Period) (ps : List Period) :
    periods_union (p :: ps) = period_set p ∪ periods_union ps := by
  unfold periods_union
  simp [List.mem_cons, Set.iUnion_or, Set.iUnion_union_distrib, Set.iUnion_iUnion_eq_left]

theorem window_set_measurable (now : ℚ) : MeasurableSet (window_set now) := by
  unfold window_set
  exact measurableSet_Icc

theorem periods_union_measurable (ps : List Period) :
    MeasurableSet (periods_union ps) := by
  induction ps with
  | nil => rw [periods_union_nil]; exact MeasurableSet.empty
  | cons p ps ih =>
    rw [periods_union_cons]
    exact (measurableSet_Icc).union ih

/-- Non-overlapping intervals meet in a measure-zero set. -/
theorem volume_inter_of_disjoint (p q : Period) (h : periods_disjoint p q) :
    MeasureTheory.volume (period_set p ∩ period_set q) = 0 := by
  unfold period_set
  rw [Set.Icc_inter_Icc, Real.volume_Icc, ENNReal.ofReal_eq_zero]
  rcases h with h | h
  · have hc : (p.2.1 : ℝ) ≤ (q.1 : ℝ) := by exact_mod_cast h
    have h1 : (p.2.1 : ℝ) ⊓ (q.2.1 : ℝ) ≤ (p.2.1 : ℝ) := inf_le_left
    have h2 : (q.1 : ℝ) ≤ (p.1 : ℝ) ⊔ (q.1 : ℝ) := le_sup_right
    linarith
  · have hc : (q.2.1 : ℝ) ≤ (p.1 : ℝ) := by exact_mod_cast h
    have h1 : (p.2.1 : ℝ) ⊓ (q.2.1 : ℝ) ≤ (q.2.1 : ℝ) := inf_le_right
    have h2 : (p.1 : ℝ) ≤ (p.1 : ℝ) ⊔ (q.1 : ℝ) := le_sup_left
    linarith

/-- A period meets the union of periods it does not overlap in a
measure-zero set. -/
theorem volume_inter_union_zero (p : Period) (ps : List Period)
    (h : ∀ q ∈ ps, periods_disjoint p q) :
    MeasureTheory.volume (period_set p ∩ periods_union ps) = 0 := by
  induction ps with
  | nil =>
    rw [periods_union_nil, Set.inter_empty]
    exact MeasureTheory.measure_empty
  | cons q ps ih =>
    rw [periods_union_cons, Set.inter_union_distrib_left]
    refine le_antisymm (le_trans (MeasureTheory.measure_union_le _ _) ?_) (zero_le _)
    rw [volume_inter_of_disjoint p q (h q (List.mem_cons_self q ps)),
      ih (fun r hr => h r (List.mem_cons_of_mem q hr)), add_zero]

/-- The in-window measure of one period is its clamped overlap, as computed
by the loop body of `get_current_duty_cycle_usage`. -/
theorem volume_window_inter_period (now : ℚ) (p : Period) :
    MeasureTheory.volume (window_set now ∩ period_set p)
      = ENNReal.ofReal ((period_overlap now p : ℚ) : ℝ) := by
  unfold window_set period_set period_overlap
  rw [Set.Icc_inter_Icc, Real.volume_Icc]
  by_cases h : max p.1 (now - DUTY_CYCLE_PERIOD) < min p.2.1 now
  · rw [if_pos h]
    congr 1
    push_cast
    rw [sup_comm, inf_comm]
  · rw [if_neg h]
    have hle : (min p.2.1 now : ℚ) ≤ max p.1 (now - DUTY_CYCLE_PERIOD) := not_lt.mp h
    have hr : ((now : ℝ)) ⊓ (p.2.1 : ℝ) ≤ ((now : ℝ) - (DUTY_CYCLE_PERIOD : ℝ)) ⊔ (p.1 : ℝ) := by
      have := (Rat.cast_le (K := ℝ)).mpr hle
      push_cast at this
      rw [inf_comm, sup_comm]
      convert this using 2 <;> push_cast <;> ring
    rw [Rat.cast_zero, ENNReal.ofReal_zero, ENNReal.ofReal_eq_zero]
    linarith


/-- The clamped overlap is never negative. -/
theorem period_overlap_nonneg (now : ℚ) (p : Period) : 0 ≤ period_overlap now p := by
  unfold period_overlap
  by_cases h : max p.1 (now - DUTY_CYCLE_PERIOD) < min p.2.1 now
  · rw [if_pos h]
    linarith
  · rw [if_neg h]

/-- The total clamped overlap is never negative. -/
theorem overlap_sum_nonneg (now : ℚ) (ps : List Period) :
    0 ≤ (ps.map (period_overlap now)).sum := by
  refine List.sum_nonneg ?_
  intro x hx
  obtain ⟨p, _, rfl⟩ := List.mem_map.mp hx
  exact period_overlap_nonneg now p

/-- The usage computed after pruning equals the clamped-overlap sum over the
full period list: pruned periods contribute zero overlap. -/
theorem usage_eq_full_sum (now : ℚ) (ps : List Period) :
    get_current_duty_cycle_usage now ps = (ps.map (period_overlap now)).sum := by
  unfold get_current_duty_cycle_usage clean_old_usage_periods
  induction ps with
  | nil => rfl
  | cons p ps ih =>
    by_cases h : p.2.1 > now - DUTY_CYCLE_PERIOD
    · simp only [List.filter_cons, decide_eq_true_eq, if_pos h, List.map_cons,
        List.sum_cons, ih]
    · simp only [List.filter_cons, decide_eq_true_eq, if_neg h, List.map_cons,
        List.sum_cons, ih, period_overlap_eq_zero_of_old now p h, zero_add]

/-- For pairwise non-overlapping periods, the in-window volume of the union
is the clamped-overlap sum. -/
theorem volume_window_inter_union (now : ℚ) (ps : List Period)
    (hd : ps.Pairwise periods_disjoint) :
    MeasureTheory.volume (window_set now ∩ periods_union ps)
      = ENNReal.ofReal (((ps.map (period_overlap now)).sum : ℚ) : ℝ) := by
  induction ps with
  | nil =>
    rw [periods_union_nil, Set.inter_empty]
    simp
  | cons p ps ih =>
    rw [List.pairwise_cons] at hd
    obtain ⟨hp, hd2⟩ := hd
    have hnm : MeasureTheory.NullMeasurableSet
        (window_set now ∩ periods_union ps) MeasureTheory.volume :=
      ((window_set_measurable now).inter (periods_union_measurable ps)).nullMeasurableSet
    have haed : MeasureTheory.volume
        ((window_set now ∩ period_set p) ∩ (window_set now ∩ periods_union ps)) = 0 := by
      refine MeasureTheory.measure_mono_null ?_ (volume_inter_union_zero p ps hp)
      intro x hx
      exact ⟨hx.1.2, hx.2.2⟩
    rw [periods_union_cons, Set.inter_union_distrib_left,
      MeasureTheory.measure_union₀ hnm haed,
      volume_window_inter_period, ih hd2,
      ← ENNReal.ofReal_add (by exact_mod_cast period_overlap_nonneg now p)
        (by exact_mod_cast overlap_sum_nonneg now ps)]
    congr 1
    push_cast
    simp [List.sum_cons]

/-- Counterexample to C2 as stated: with two overlapping (here identical)
recorded intervals `[1000-900, 1000-895]`, the computed usage double-counts
the overlap (10 s) and differs from the measure of the window-intersected
union (5 s). -/
theorem c2_counterexample :
    ¬ ((MeasureTheory.volume (window_set 1000
          ∩ periods_union [((100 : ℚ), 105, 5), (100, 105, 5)])).toReal
        = ((get_current_duty_cycle_usage 1000 [((100 : ℚ), 105, 5), (100, 105, 5)] : ℚ) : ℝ)) := by
  have hu : get_current_duty_cycle_usage 1000 [((100 : ℚ), 105, 5), (100, 105, 5)] = 10 := by
    norm_num [get_current_duty_cycle_usage, clean_old_usage_periods, period_overlap,
      DUTY_CYCLE_PERIOD]
  have hset : periods_union [((100 : ℚ), 105, 5), (100, 105, 5)]
      = Set.Icc (100 : ℝ) 105 := by
    rw [periods_union_cons, periods_union_cons, periods_union_nil, Set.union_empty,
      Set.union_self]
    unfold period_set
    norm_num
  have hvol : (MeasureTheory.volume (window_set 1000
      ∩ periods_union [((100 : ℚ), 105, 5), (100, 105, 5)])).toReal = 5 := by
    rw [hset]
    unfold window_set DUTY_CYCLE_PERIOD
    rw [Set.inter_eq_self_of_subset_right
      (Set.Icc_subset_Icc (by push_cast; norm_num) (by push_cast; norm_num)),
      Real.volume_Icc, ENNReal.toReal_ofReal (by norm_num)]
    norm_num
  rw [hvol, hu]
  norm_num

/-- C2 (amended). For pairwise non-overlapping recorded intervals — which is
what sequentially executed bursts produce — `get_current_duty_cycle_usage`
equals the exact measure of `[now - window_period, now] ∩ ⋃intervals`, and
the computed usage is independent of the order in which the intervals were
recorded (order-independence needs no disjointness); with mutually
overlapping intervals the code over-counts, as the counterexample shows. -/
theorem c2_usage_eq_window_measure (now : ℚ) (ps : List Period)
    (hd : ps.Pairwise periods_disjoint) :
    ((MeasureTheory.volume (window_set now ∩ periods_union ps)).toReal
        = ((get_current_duty_cycle_usage now ps : ℚ) : ℝ))
      ∧ ∀ ps2 : List Period, ps.Perm ps2 →
          get_current_duty_cycle_usage now ps2 = get_current_duty_cycle_usage now ps := by
  constructor
  · rw [volume_window_inter_union now ps hd,
      ENNReal.toReal_ofReal (by exact_mod_cast overlap_sum_nonneg now ps),
      usage_eq_full_sum]
  · intro ps2 hperm
    unfold get_current_duty_cycle_usage clean_old_usage_periods
    exact (((hperm.filter _).map _).sum_eq).symm

/-- Witness for C2 (amended) on two disjoint periods, one straddling the
window boundary as in the spec scenario C shifted to `now = 1000`. -/
theorem c2_witness :
    (MeasureTheory.volume (window_set 1000
        ∩ periods_union [((-210 : ℚ), -190, 20), (200, 300, 100)])).toReal
      = ((get_current_duty_cycle_usage 1000 [((-210 : ℚ), -190, 20), (200, 300, 100)] : ℚ) : ℝ) :=
  (c2_usage_eq_window_measure 1000 [((-210 : ℚ), -190, 20), (200, 300, 100)]
    (by norm_num [List.pairwise_cons, periods_disjoint])).1

end ProgAuto
